import Mathlib

/-!
Verification of the QC-dashboard data pipeline (lot-code parsing, date
unification, numeric normalization, outlier classification).

The definitions below are a shallow embedding of the Python sources
`data_processing.py` and `app.py`:

* Python strings are modelled as `List Char` (`Str`); `str.strip` is `trimL`
  (stripping the ASCII whitespace characters Python strips), `str.lower` is
  `lowerL` (ASCII case mapping: Python's full Unicode lowering differs only on
  non-ASCII letters, which can never produce the ASCII letters occurring in the
  searched tokens "rm", "raw material", "pg", "packaging", so substring tests
  are unaffected), and the Python substring test `pat in s` is the decidable
  `List.IsInfix` relation.
* `pandas` timestamps are modelled by the `Date` structure; `pd.to_datetime`
  with format `%d%m%y` and `errors='coerce'` is `parseDDMMYY6` (strict
  six-digit match, `%y` pivot 68, proleptic-Gregorian calendar validity,
  failure encoded as `none` in place of `NaT`).
* numeric cell values are modelled as `Option ℚ` (`none` in place of `NaN`);
  float results of the pipeline are exact rationals here because every number
  produced by the numeric normalizer is a finite decimal.
-/

namespace QLone

/-- Python strings, modelled as lists of characters. -/
abbrev Str := List Char

/-- Coerce a Lean string literal to the model type. -/
def str (s : String) : Str := s.data

/-- The whitespace characters stripped by Python `str.strip()`. -/
def wsC (c : Char) : Bool :=
  c = ' ' || c = '\t' || c = '\n' || c = '\r' || c = '\x0b' || c = '\x0c'

/-- Python `str.strip()`: drop leading and trailing whitespace. -/
def trimL (s : Str) : Str :=
  ((s.dropWhile wsC).reverse.dropWhile wsC).reverse

/-- ASCII lower-casing of one character (Python `str.lower()` restricted to
ASCII; see the header note). -/
def lowC (c : Char) : Char :=
  if c = 'A' then 'a' else if c = 'B' then 'b' else if c = 'C' then 'c'
  else if c = 'D' then 'd' else if c = 'E' then 'e' else if c = 'F' then 'f'
  else if c = 'G' then 'g' else if c = 'H' then 'h' else if c = 'I' then 'i'
  else if c = 'J' then 'j' else if c = 'K' then 'k' else if c = 'L' then 'l'
  else if c = 'M' then 'm' else if c = 'N' then 'n' else if c = 'O' then 'o'
  else if c = 'P' then 'p' else if c = 'Q' then 'q' else if c = 'R' then 'r'
  else if c = 'S' then 's' else if c = 'T' then 't' else if c = 'U' then 'u'
  else if c = 'V' then 'v' else if c = 'W' then 'w' else if c = 'X' then 'x'
  else if c = 'Y' then 'y' else if c = 'Z' then 'z' else c

/-- Python `str.lower()` (ASCII part). -/
def lowerL (s : Str) : Str := s.map lowC

/-- Python `str.split(sep)` for a one-character separator, auxiliary. -/
def splitAux (sep : Char) : Str → Str → List Str
  | [], acc => [acc.reverse]
  | c :: rest, acc =>
      if c = sep then acc.reverse :: splitAux sep rest []
      else splitAux sep rest (c :: acc)

/-- Python `str.split(sep)` for a one-character separator
(`"".split('-') = [""]`, so the result is never empty). -/
def splitOnC (sep : Char) (s : Str) : List Str := splitAux sep s []

/-- Python substring test `pat in hay`. -/
def pyContains (hay pat : Str) : Bool := decide (pat <:+: hay)

/-- A calendar date (what survives of a `pandas.Timestamp` here: the pipeline
only ever builds midnight timestamps from day/month/year fields). -/
structure Date where
  year : Nat
  month : Nat
  day : Nat
deriving DecidableEq

/-- Gregorian leap-year rule (as used by `pandas` timestamp validation). -/
def isLeap (y : Nat) : Bool := y % 4 = 0 && (y % 100 ≠ 0 || y % 400 = 0)

/-- Number of days of month `m` of year `y` (0 for an invalid month index). -/
def daysInMonth (y m : Nat) : Nat :=
  if m = 1 then 31 else if m = 2 then (if isLeap y then 29 else 28)
  else if m = 3 then 31 else if m = 4 then 30 else if m = 5 then 31
  else if m = 6 then 30 else if m = 7 then 31 else if m = 8 then 31
  else if m = 9 then 30 else if m = 10 then 31 else if m = 11 then 30
  else if m = 12 then 31 else 0

/-- The numeric value of a decimal digit character. -/
def dVal (c : Char) : Nat := c.toNat - 48

/-- `pd.to_datetime(s, format='%d%m%y', errors='coerce')` on a string `s`:
the format matches exactly six decimal digits `DDMMYY`; `%y` maps `00-68` to
`2000-2068` and `69-99` to `1969-1999`; the day/month pair must be a valid
proleptic-Gregorian calendar date; any failure is `NaT`, i.e. `none`. -/
def parseDDMMYY6 (s : Str) : Option Date :=
  match s with
  | [d1, d2, m1, m2, y1, y2] =>
      if d1.isDigit && d2.isDigit && m1.isDigit && m2.isDigit
          && y1.isDigit && y2.isDigit then
        let dd := 10 * dVal d1 + dVal d2
        let mm := 10 * dVal m1 + dVal m2
        let yy := 10 * dVal y1 + dVal y2
        let y := if yy ≤ 68 then 2000 + yy else 1900 + yy
        if 1 ≤ mm && mm ≤ 12 && 1 ≤ dd && dd ≤ daysInMonth y mm then
          some ⟨y, mm, dd⟩
        else none
      else none
  | _ => none

/-- `data_processing.parse_ddmmyy`: strip the input, return `None` when fewer
than six characters remain, otherwise parse the first six characters as
`DDMMYY`. -/
def parse_ddmmyy (s : Str) : Option Date :=
  let t := trimL s
  if t.length < 6 then none
  else parseDDMMYY6 (t.take 6)

/-- The sample-type test shared by `process_lot_dates`, `unify_date` and
`parse_dates_vectorized`, applied to an already lower-cased sample type:
`"rm" in s or "raw material" in s or "pg" in s or "packaging" in s`. -/
def rmPgOf (sLower : Str) : Bool :=
  pyContains sLower (str "rm") || pyContains sLower (str "raw material")
    || pyContains sLower (str "pg") || pyContains sLower (str "packaging")

/-- Result row of `data_processing.process_lot_dates` (the `pd.Series` of
`warehouse_date`, `supplier_date`, `supplier_name`). -/
structure LotResult where
  warehouse_date : Option Date
  supplier_date : Option Date
  supplier_name : Option Str
deriving DecidableEq

/-- The sentinel supplier token. -/
def mbpTok : Str := str "MBP"

/-- `data_processing.process_lot_dates`: strip the lot number and the sample
type, split the lot number on `'-'` keeping only the stripped non-empty
segments, then branch on the sample-type category exactly as the source does
(`parts[i]` guarded by `len(parts) >= i+1`). -/
def process_lot_dates (lot_number sample_type : Str) : LotResult :=
  let lot := trimL lot_number
  let stype := lowerL (trimL sample_type)
  let parts := ((splitOnC '-' lot).map trimL).filter (fun p => p ≠ [])
  if rmPgOf stype then
    { warehouse_date :=
        if h : 1 ≤ parts.length then parse_ddmmyy (parts.get ⟨0, h⟩) else none
      supplier_date :=
        if h : 3 ≤ parts.length then parse_ddmmyy (parts.get ⟨2, h⟩) else none
      supplier_name :=
        if h : 2 ≤ parts.length then
          (if parts.get ⟨1, h⟩ ≠ mbpTok then some (parts.get ⟨1, h⟩) else none)
        else none }
  else
    { warehouse_date := none
      supplier_date :=
        if h : 1 ≤ parts.length then parse_ddmmyy (parts.get ⟨0, h⟩) else none
      supplier_name := none }

/-- `data_processing.unify_date`.  The row fields `warehouse_date`,
`supplier_date` and `Receipt Date` are passed explicitly; `hasReceiptCol`
models the Python membership test `"Receipt Date" in row` (when the column is
absent, `row.get` would yield `None`, hence the realistic instances satisfy
`hasReceiptCol = false → receipt_date = none`).  Note the source lower-cases
the sample type here without stripping it. -/
def unify_date (sample_type : Str) (warehouse_date supplier_date : Option Date)
    (receipt_date : Option Date) (hasReceiptCol : Bool) : Option Date :=
  if rmPgOf (lowerL sample_type) then
    match warehouse_date with
    | some d => some d
    | none => supplier_date
  else
    if hasReceiptCol && receipt_date.isSome then receipt_date
    else supplier_date

/-! ### Numeric normalizer

`prepare_data` (`data_processing.py` lines 178-184) and `remove_outliers`
(`app.py` lines 143-148) coerce the free-text `Actual result` column with

`pd.to_numeric(col.astype(str).str.replace(',', '.').str.extract(r'(\d+\.?\d*)')[0], errors='coerce')`

`str.extract` uses `re.search` semantics: the first (leftmost) match of the
greedy pattern `\d+\.?\d*` is extracted; with no match the result is `NaN`.
-/

/-- `str.replace(',', '.')`. -/
def replaceCommas (s : Str) : Str := s.map (fun c => if c = ',' then '.' else c)

/-- The greedy match of the regex `\d+\.?\d*` at a position whose first
character is a digit: a maximal digit run, then an optional single `'.'`, then
a maximal (possibly empty) digit run. -/
def matchNumFrom (s : Str) : Str :=
  let ds := s.takeWhile Char.isDigit
  let r1 := s.dropWhile Char.isDigit
  if r1.head? = some '.' then ds ++ '.' :: r1.tail.takeWhile Char.isDigit
  else ds

/-- `re.search` of `\d+\.?\d*`: scan to the first digit and match greedily
there; `none` when the string holds no digit. -/
def searchNum : Str → Option Str
  | [] => none
  | c :: rest => if c.isDigit then some (matchNumFrom (c :: rest)) else searchNum rest

/-- Value of a digit run, most significant digit first. -/
def digitsToNat (ds : Str) : Nat := ds.foldl (fun a c => 10 * a + dVal c) 0

/-- `pd.to_numeric` on a token of shape `digits ['.' digits*]` (every token
the extraction step can produce, including a dangling `"12."`, is of this
shape and always converts). -/
def tokenToRat (t : Str) : ℚ :=
  let ip := t.takeWhile Char.isDigit
  let rest := t.dropWhile Char.isDigit
  let fp := match rest with
    | _ :: r => r
    | [] => []
  (digitsToNat ip : ℚ) + (digitsToNat fp : ℚ) / (10 : ℚ) ^ fp.length

/-- The full numeric normalizer applied to one cell rendered as a string. -/
def normalizeNumeric (s : Str) : Option ℚ :=
  (searchNum (replaceCommas s)).map tokenToRat

/-- Modelled from the spec's wording of the extraction pattern, for comparison
with the source regex `\d+\.?\d*`: "one or more digits, optionally followed by
a period and one or more digits" — the period is consumed only when at least
one digit follows it. -/
def matchNumFromSpec (s : Str) : Str :=
  let ds := s.takeWhile Char.isDigit
  let r1 := s.dropWhile Char.isDigit
  if r1.head? = some '.' then
    (let f := r1.tail.takeWhile Char.isDigit
     if f.isEmpty then ds else ds ++ '.' :: f)
  else ds

/-- The spec-worded search: first position where the spec pattern matches. -/
def searchNumSpec : Str → Option Str
  | [] => none
  | c :: rest =>
      if c.isDigit then some (matchNumFromSpec (c :: rest)) else searchNumSpec rest

/-- The normalizer as the spec words it. -/
def normalizeNumericSpec (s : Str) : Option ℚ :=
  (searchNumSpec (replaceCommas s)).map tokenToRat

/-! ### Outlier classifier

`data_processing.remove_outliers` / `app.remove_outliers`.  Both call sites in
the repository pass `method='IQR'`; the `else` branch (mean ± factor·std)
involves a floating-point square root and is not exercised by any claim, so
only the IQR branch is embedded.  Column values are `Option ℚ` (`none` models
`NaN`); a comparison against `NaN` is false in pandas, which is what the
`Option` matches below encode.
-/

/-- Floor of a nonnegative rational, as a `Nat` index. -/
def qIndex (x : ℚ) : Nat := x.num.toNat / x.den

/-- Ceiling of a nonnegative rational, as a `Nat` index. -/
def qCeilIndex (x : ℚ) : Nat := (x.num.toNat + x.den - 1) / x.den

/-- Insertion into a `≤`-sorted list of rationals. -/
def insertSorted (x : ℚ) : List ℚ → List ℚ
  | [] => [x]
  | y :: ys => if x ≤ y then x :: y :: ys else y :: insertSorted x ys

/-- Insertion sort (ascending) of the present values of the column. -/
def sortQ (xs : List ℚ) : List ℚ := xs.foldr insertSorted []

/-- `Series.quantile(q)` with the default linear interpolation, on the sorted
non-`NaN` values `x_0 ≤ … ≤ x_(n-1)`: position `h = q·(n-1)`, result
`x_lo + (h - lo)·(x_hi - x_lo)` with `lo = ⌊h⌋`, `hi = ⌈h⌉`. -/
def quantileLinear (sorted : List ℚ) (q : ℚ) : ℚ :=
  let n := sorted.length
  let h : ℚ := q * ((n : ℚ) - 1)
  let lo := qIndex h
  let hi := qCeilIndex h
  (sorted.getD lo 0) + (h - (lo : ℚ)) * ((sorted.getD hi 0) - (sorted.getD lo 0))

/-- `(col < lb) | (col > ub)` on one cell (`false` on `NaN`). -/
def outlierTest (v : Option ℚ) (lb ub : ℚ) : Bool :=
  match v with
  | none => false
  | some x => decide (x < lb) || decide (ub < x)

/-- `(col >= lb) & (col <= ub)` on one cell (`false` on `NaN`). -/
def inlierTest (v : Option ℚ) (lb ub : ℚ) : Bool :=
  match v with
  | none => false
  | some x => decide (lb ≤ x) && decide (x ≤ ub)

/-- The common IQR branch of `remove_outliers` (`data_processing.py` lines
127-143): bounds `Q1 - factor·IQR` and `Q3 + factor·IQR` from the linearly
interpolated quartiles of the non-`NaN` values, then the two boolean-indexing
filters of the source.  When every value is `NaN`, `Series.quantile` is `NaN`,
every comparison against the `NaN` bounds is false, and both filters drop
every row — encoded by the explicit second branch. -/
def removeOutliersIQR {α : Type} (val : α → Option ℚ) (df : List α)
    (factor : ℚ) : List α × List α :=
  if df.isEmpty then (df, [])
  else
    let vals := df.filterMap val
    if vals.isEmpty then ([], [])
    else
      let sorted := sortQ vals
      let q1 := quantileLinear sorted (1 / 4)
      let q3 := quantileLinear sorted (3 / 4)
      let iqr := q3 - q1
      let lb := q1 - factor * iqr
      let ub := q3 + factor * iqr
      (df.filter (fun r => inlierTest (val r) lb ub),
       df.filter (fun r => outlierTest (val r) lb ub))

/-- `data_processing.remove_outliers` with `method='IQR'`: the guards of lines
120-125 (`df` missing/empty, column missing, column not of a numeric dtype)
return the input unchanged with an empty outlier set; otherwise the IQR
branch runs.  `hasCol` models `column in df.columns` and `numericDtype`
models `pd.api.types.is_numeric_dtype(df[column])`; `val` is the cell lookup
of the target column. -/
def remove_outliers_dp {α : Type} (hasCol numericDtype : Bool)
    (val : α → Option ℚ) (df : List α) (factor : ℚ) : List α × List α :=
  if !hasCol || df.isEmpty || !numericDtype then (df, [])
  else removeOutliersIQR val df factor

/-- A row of the table handed to `app.remove_outliers`: an identifier standing
for all the other columns, and the raw text of the target column. -/
structure SRow where
  id : Nat
  sval : Str
deriving DecidableEq

/-- `app.remove_outliers` with `method='IQR'` (lines 139-169): coerce the raw
column itself (the numeric normalizer), return `(df, empty)` when the column
is missing, `df` is empty, or no value survives coercion; otherwise filter
with `df[~outlier_mask], df[outlier_mask]` — note the inlier filter is the
complement of the outlier mask, so rows whose value is `NaN` land in the
inlier output.  The returned rows are the input rows; the in-place coercion
of the target column is not carried along since no claim inspects it. -/
def remove_outliers_app (hasCol : Bool) (df : List SRow) (factor : ℚ) :
    List SRow × List SRow :=
  if !hasCol || df.isEmpty then (df, [])
  else
    let val := fun r : SRow => normalizeNumeric r.sval
    let vals := df.filterMap val
    if vals.isEmpty then (df, [])
    else
      let sorted := sortQ vals
      let q1 := quantileLinear sorted (1 / 4)
      let q3 := quantileLinear sorted (3 / 4)
      let iqr := q3 - q1
      let lb := q1 - factor * iqr
      let ub := q3 + factor * iqr
      (df.filter (fun r => !(outlierTest (val r) lb ub)),
       df.filter (fun r => outlierTest (val r) lb ub))

/-! ### The vectorized date parser of `app.py`

`parse_dates_vectorized` (lines 73-133) computes, row by row, the same four
derived fields that `process_lot_dates` followed by `unify_date` compute in
`data_processing.py`.  All its pandas operations (`str.split(expand=True)`,
boolean masks, `.loc` assignments) are elementwise, so it is embedded as a
per-row function; a `lot_parts` column that exists for no row of the frame
(the `if i in lot_parts.columns` guards) corresponds to `parts.get? i = none`
for every row, and the guarded assignment of a `None`/`NaT` entry leaves the
initialized `None`/`NaT` — the same result the per-row `none` branch gives.
The `Receipt Date` column is assumed present (line 129 reads it unguarded;
the query of `app.py` always selects it). -/

/-- The four derived fields of one row. -/
structure VecResult where
  warehouse_date : Option Date
  supplier_date : Option Date
  supplier_name : Option Str
  final_date : Option Date
deriving DecidableEq

/-- Segment-to-date step of the vectorized parser:
`pd.to_datetime(part.str.strip().str[:6], format='%d%m%y', errors='coerce')`
(a segment shorter than six characters never matches the strict format). -/
def parseVecSeg (p : Str) : Option Date := parseDDMMYY6 ((trimL p).take 6)

/-- One row of `app.parse_dates_vectorized`: lot split on `'-'` with the raw
(unfiltered) segments, segment 0 and segment 2 stripped before parsing,
segment 1 compared to `'MBP'` unstripped. -/
def parse_dates_vectorized_row (lot sample_type : Str)
    (receipt_date : Option Date) : VecResult :=
  let lotS := trimL lot
  let stL := lowerL (trimL sample_type)
  let parts := splitOnC '-' lotS
  let rm := rmPgOf stL
  let d0 := parseVecSeg (parts.headD [])
  let warehouse := if rm then d0 else none
  let sd0 := if rm then none else d0
  let sname :=
    match parts.get? 1 with
    | some p1 => if rm && !(p1 = mbpTok) then some p1 else none
    | none => none
  let sdate :=
    if rm then
      match parts.get? 2 with
      | some p2 => parseVecSeg p2
      | none => none
    else sd0
  let final :=
    if rm then
      match warehouse with
      | some d => some d
      | none => sdate
    else
      match receipt_date with
      | some d => some d
      | none => sd0
  ⟨warehouse, sdate, sname, final⟩

/-- The row-wise composition of `data_processing.process_lot_dates` and
`data_processing.unify_date` (with the `Receipt Date` column present), for
comparison with the vectorized parser. -/
def rowwiseResult (lot sample_type : Str) (receipt_date : Option Date) :
    VecResult :=
  let lr := process_lot_dates lot sample_type
  ⟨lr.warehouse_date, lr.supplier_date, lr.supplier_name,
   unify_date sample_type lr.warehouse_date lr.supplier_date receipt_date true⟩

/-! ### The full pipeline of `data_processing.prepare_data`

Lot parsing, date unification, numeric normalization of `Actual result`, then
`remove_outliers(df, column='Actual result', method='IQR', factor=1.5)`.  The
BigQuery fetch and the `Receipt Date` → timestamp conversion happen upstream
(the receipt field below is the already-converted optional date); the query
always selects `Receipt Date` and `Actual result`, and the `to_numeric`
coercion gives the column a numeric dtype, so the classifier runs with both
guards satisfied. -/

/-- The raw columns of one input row that the pipeline reads, plus `other`,
which stands for every column the pipeline does not read. -/
structure RawRow where
  lot : Str
  sampleType : Str
  receipt : Option Date
  actual : Str
  other : Nat
deriving DecidableEq

/-- An input row together with the derived columns the pipeline attaches. -/
structure OutRow where
  raw : RawRow
  warehouse_date : Option Date
  supplier_date : Option Date
  supplier_name : Option Str
  final_date : Option Date
  actual_numeric : Option ℚ
deriving DecidableEq

/-- The per-row derivation steps of `prepare_data`. -/
def enrichRow (r : RawRow) : OutRow :=
  let lr := process_lot_dates r.lot r.sampleType
  let fd := unify_date r.sampleType lr.warehouse_date lr.supplier_date
    r.receipt true
  ⟨r, lr.warehouse_date, lr.supplier_date, lr.supplier_name, fd,
   normalizeNumeric r.actual⟩

/-- `prepare_data`'s pipeline from the in-memory table to the
(inliers, outliers) pair. -/
def pipeline (df : List RawRow) : List OutRow × List OutRow :=
  remove_outliers_dp true true OutRow.actual_numeric (df.map enrichRow) (3 / 2)

/-- The raw fields a row contributes to the pipeline. -/
def rawKey (r : RawRow) : Str × Str × Option Date × Str :=
  (r.lot, r.sampleType, r.receipt, r.actual)

/-- The derived columns of an output row. -/
def derivedOf (r : OutRow) :
    Option Date × Option Date × Option Str × Option Date × Option ℚ :=
  (r.warehouse_date, r.supplier_date, r.supplier_name, r.final_date,
   r.actual_numeric)

/-- The derived columns of an output table. -/
def derivedCols (l : List OutRow) :
    List (Option Date × Option Date × Option Str × Option Date × Option ℚ) :=
  l.map derivedOf

/-- Parsing one optional segment as a date. -/
def segParse (o : Option Str) : Option Date :=
  match o with
  | some p => parse_ddmmyy p
  | none => none

/-- The supplier-name rule on one optional segment. -/
def segName (o : Option Str) : Option Str :=
  match o with
  | some p => if p ≠ mbpTok then some p else none
  | none => none

/-- The cleaned segment list `process_lot_dates` works on. -/
def lotParts (lot_number : Str) : List Str :=
  ((splitOnC '-' (trimL lot_number)).map trimL).filter (fun p => p ≠ [])

/-- The derived tuple of one row as a function of its raw key alone (the body
of `enrichRow` after projecting out the raw row). -/
def enrichKey (k : Str × Str × Option Date × Str) :
    Option Date × Option Date × Option Str × Option Date × Option ℚ :=
  let lr := process_lot_dates k.1 k.2.1
  (lr.warehouse_date, lr.supplier_date, lr.supplier_name,
   unify_date k.2.1 lr.warehouse_date lr.supplier_date k.2.2.1 true,
   normalizeNumeric k.2.2.2)

/-- The numeric cell of a derived tuple. -/
def valOfDerived
    (t : Option Date × Option Date × Option Str × Option Date × Option ℚ) :
    Option ℚ := t.2.2.2.2

/-- The ten-value column of the spec's IQR boundary example, with row ids. -/
def dfC5 : List (Nat × Option ℚ) :=
  [(0, some 1), (1, some 2), (2, some 3), (3, some 4), (4, some 5),
   (5, some 6), (6, some 7), (7, some 8), (8, some 9), (9, some 100)]

/-- A one-row table whose two copies differ only in the `other` column. -/
def dfA : List RawRow :=
  [⟨str "020125-KIB08-291224-MBP", str "RM - Raw material", none, str "12,5", 0⟩]

/-- The same raw data as `dfA` with a different `other` column. -/
def dfB : List RawRow :=
  [⟨str "020125-KIB08-291224-MBP", str "RM - Raw material", none, str "12,5", 7⟩]

/-- The lower IQR bound `Q1 - factor·(Q3 - Q1)` of a list of present values
(quartiles by linear interpolation, as in `Series.quantile`). -/
def iqrLB (vals : List ℚ) (factor : ℚ) : ℚ :=
  quantileLinear (sortQ vals) (1 / 4)
    - factor * (quantileLinear (sortQ vals) (3 / 4)
      - quantileLinear (sortQ vals) (1 / 4))

/-- The upper IQR bound `Q3 + factor·(Q3 - Q1)` of a list of present
values. -/
def iqrUB (vals : List ℚ) (factor : ℚ) : ℚ :=
  quantileLinear (sortQ vals) (3 / 4)
    + factor * (quantileLinear (sortQ vals) (3 / 4)
      - quantileLinear (sortQ vals) (1 / 4))

attribute [local semireducible] Rat.add Rat.mul Rat.inv Rat.sub

/-! ### Helper lemmas -/

/-- Python `split` never yields an empty list of segments. -/
theorem splitAux_ne_nil (sep : Char) (s acc : Str) : splitAux sep s acc ≠ [] := by
  induction s generalizing acc with
  | nil => simp [splitAux]
  | cons c rest ih =>
      simp only [splitAux]
      split
      · simp
      · exact ih (c :: acc)

/-- Python `split` never yields an empty list of segments. -/
theorem splitOnC_ne_nil (sep : Char) (s : Str) : splitOnC sep s ≠ [] :=
  splitAux_ne_nil sep s []

/-- A guarded first-segment parse is the `get? 0` lookup. -/
theorem dite_seg0 (l : List Str) :
    (if h : 1 ≤ l.length then parse_ddmmyy (l.get ⟨0, h⟩) else none)
      = segParse (l.get? 0) := by
  cases l with
  | nil => rfl
  | cons a t =>
      split
      · rfl
      · next h => exact absurd (Nat.succ_le_succ (Nat.zero_le t.length)) h

/-- A guarded third-segment parse is the `get? 2` lookup. -/
theorem dite_seg2 (l : List Str) :
    (if h : 3 ≤ l.length then parse_ddmmyy (l.get ⟨2, h⟩) else none)
      = segParse (l.get? 2) := by
  match l with
  | [] => rfl
  | [_] => rfl
  | [_, _] => rfl
  | a :: b :: c :: t =>
      split
      · rfl
      · next h =>
          exact absurd
            (Nat.succ_le_succ (Nat.succ_le_succ (Nat.succ_le_succ (Nat.zero_le t.length)))) h

/-- The guarded sentinel-filtered second segment is the `get? 1` lookup. -/
theorem dite_seg1 (l : List Str) :
    (if h : 2 ≤ l.length then
       (if l.get ⟨1, h⟩ ≠ mbpTok then some (l.get ⟨1, h⟩) else none)
     else none)
      = segName (l.get? 1) := by
  match l with
  | [] => rfl
  | [_] => rfl
  | a :: b :: t =>
      split
      · rfl
      · next h =>
          exact absurd (Nat.succ_le_succ (Nat.succ_le_succ (Nat.zero_le t.length))) h

/-- `process_lot_dates`, re-expressed so that every derived field is a
function of its own segment lookup alone. -/
theorem process_lot_dates_eq (lot st : Str) :
    process_lot_dates lot st =
      (if rmPgOf (lowerL (trimL st)) then
        { warehouse_date := segParse ((lotParts lot).get? 0)
          supplier_date := segParse ((lotParts lot).get? 2)
          supplier_name := segName ((lotParts lot).get? 1) }
      else
        { warehouse_date := none
          supplier_date := segParse ((lotParts lot).get? 0)
          supplier_name := none }) := by
  unfold process_lot_dates lotParts
  dsimp only
  split
  · rw [dite_seg0, dite_seg1, dite_seg2]
  · rw [dite_seg0]

/-- Whitespace characters are fixed points of ASCII lower-casing. -/
theorem lowC_of_ws (d : Char) (hd : wsC d = true) : lowC d = d := by
  have h6 : d = ' ' ∨ d = '\t' ∨ d = '\n' ∨ d = '\r' ∨ d = '\x0b' ∨ d = '\x0c' := by
    simpa [wsC, or_assoc] using hd
  rcases h6 with h | h | h | h | h | h <;> subst h <;> rfl

/-- Lower-casing commutes with reversal. -/
theorem lowerL_reverse (l : Str) : lowerL (l.reverse) = (lowerL l).reverse :=
  List.map_reverse lowC l

/-- A pattern whose first character is not whitespace occurs in the
lower-casing of a string iff it occurs in the lower-casing of the string with
its leading whitespace dropped. -/
theorem infix_lower_dropWhile_iff (c : Char) (p s : Str) (hc : wsC c = false) :
    (c :: p) <:+: lowerL (s.dropWhile wsC) ↔ (c :: p) <:+: lowerL s := by
  induction s with
  | nil => exact Iff.rfl
  | cons d t ih =>
      rw [List.dropWhile_cons]
      cases hd : wsC d with
      | false => exact Iff.rfl
      | true =>
          rw [if_pos rfl, ih]
          constructor
          · exact fun h => List.infix_cons h
          · intro h
            rcases List.infix_cons_iff.mp h with hpre | hinf
            · rcases List.cons_prefix_cons.mp hpre with ⟨hcd, _⟩
              rw [hcd, lowC_of_ws d hd, hd] at hc
              exact absurd hc (by simp)
            · exact hinf

/-- A pattern with non-whitespace first and last characters occurs in the
lower-cased stripped string iff it occurs in the lower-cased string.  The
reversed pattern is passed explicitly as `c' :: p'` so that both ends are
handled by `infix_lower_dropWhile_iff`. -/
theorem infix_lower_trimL_iff (c c' : Char) (p p' s : Str) (hc : wsC c = false)
    (hc' : wsC c' = false) (hrev : (c :: p).reverse = c' :: p') :
    (c :: p) <:+: lowerL (trimL s) ↔ (c :: p) <:+: lowerL s := by
  have rev_iff : ∀ l₁ l₂ : Str, l₁.reverse <:+: l₂.reverse ↔ l₁ <:+: l₂ := by
    intro l₁ l₂
    simp
  unfold trimL
  rw [lowerL_reverse]
  have e1 := rev_iff ((c :: p).reverse) (lowerL ((s.dropWhile wsC).reverse.dropWhile wsC))
  rw [List.reverse_reverse, hrev] at e1
  have e3 := infix_lower_dropWhile_iff c' p' (s.dropWhile wsC).reverse hc'
  rw [lowerL_reverse] at e3
  have e4 := rev_iff (c :: p) (lowerL (s.dropWhile wsC))
  rw [hrev] at e4
  have e5 := infix_lower_dropWhile_iff c p s hc
  exact e1.trans (e3.trans (e4.trans e5))

/-- The sample-type category test is unaffected by stripping (none of the
searched tokens begins or ends with whitespace). -/
theorem rmPgOf_lower_trimL (st : Str) :
    rmPgOf (lowerL (trimL st)) = rmPgOf (lowerL st) := by
  have h1 : pyContains (lowerL (trimL st)) (str "rm")
      = pyContains (lowerL st) (str "rm") :=
    decide_eq_decide.mpr
      (infix_lower_trimL_iff 'r' 'm' (str "m") (str "r") st (by decide)
        (by decide) (by decide))
  have h2 : pyContains (lowerL (trimL st)) (str "raw material")
      = pyContains (lowerL st) (str "raw material") :=
    decide_eq_decide.mpr
      (infix_lower_trimL_iff 'r' 'l' (str "aw material") (str "airetam war") st
        (by decide) (by decide) (by decide))
  have h3 : pyContains (lowerL (trimL st)) (str "pg")
      = pyContains (lowerL st) (str "pg") :=
    decide_eq_decide.mpr
      (infix_lower_trimL_iff 'p' 'g' (str "g") (str "p") st (by decide)
        (by decide) (by decide))
  have h4 : pyContains (lowerL (trimL st)) (str "packaging")
      = pyContains (lowerL st) (str "packaging") :=
    decide_eq_decide.mpr
      (infix_lower_trimL_iff 'p' 'g' (str "ackaging") (str "nigakcap") st
        (by decide) (by decide) (by decide))
  unfold rmPgOf
  rw [h1, h2, h3, h4]

/-- `takeWhile` keeps the whole list and `dropWhile` drops it when the
predicate holds everywhere. -/
theorem takeWhile_all {p : Char → Bool} (l : Str) (h : ∀ c ∈ l, p c = true) :
    l.takeWhile p = l ∧ l.dropWhile p = [] := by
  induction l with
  | nil => exact ⟨rfl, rfl⟩
  | cons c t ih =>
      have hc := h c (by simp)
      have iht := ih (fun x hx => h x (by simp [hx]))
      rw [List.takeWhile_cons, List.dropWhile_cons, hc]
      simp [iht.1, iht.2]

/-- Splitting an all-digit block followed by a period. -/
theorem takeWhile_digits_dot (ds r : Str) (h : ∀ c ∈ ds, c.isDigit = true) :
    (ds ++ '.' :: r).takeWhile Char.isDigit = ds
      ∧ (ds ++ '.' :: r).dropWhile Char.isDigit = '.' :: r := by
  induction ds with
  | nil => exact ⟨rfl, rfl⟩
  | cons d t ih =>
      have hd : d.isDigit = true := h d (by simp)
      have iht := ih (fun c hc => h c (by simp [hc]))
      rw [List.cons_append, List.takeWhile_cons, List.dropWhile_cons, hd]
      simp [iht.1, iht.2]

/-- A dangling period contributes nothing to the numeric value of a token. -/
theorem tokenToRat_dangling (ds : Str) (h : ∀ c ∈ ds, c.isDigit = true) :
    tokenToRat (ds ++ ['.']) = tokenToRat ds := by
  unfold tokenToRat
  rw [(takeWhile_digits_dot ds [] h).1, (takeWhile_digits_dot ds [] h).2,
    (takeWhile_all ds h).1, (takeWhile_all ds h).2]

/-- The greedy source regex and the spec-worded pattern extract tokens of the
same numeric value from any digit-headed position. -/
theorem matchNumFrom_value (s : Str) :
    tokenToRat (matchNumFrom s) = tokenToRat (matchNumFromSpec s) := by
  unfold matchNumFrom matchNumFromSpec
  dsimp only
  by_cases hh : (s.dropWhile Char.isDigit).head? = some '.'
  · rw [if_pos hh, if_pos hh]
    cases hf : (s.dropWhile Char.isDigit).tail.takeWhile Char.isDigit with
    | nil =>
        have e : (if ([] : Str).isEmpty = true then s.takeWhile Char.isDigit
            else s.takeWhile Char.isDigit ++ ['.']) = s.takeWhile Char.isDigit := by
          simp
        rw [e]
        exact tokenToRat_dangling (s.takeWhile Char.isDigit)
          (fun c hc => List.mem_takeWhile_imp hc)
    | cons b fr =>
        rw [if_neg (by simp : ¬((b :: fr).isEmpty = true))]
  · rw [if_neg hh, if_neg hh]

/-- The two search loops agree at the numeric-value level. -/
theorem searchNum_value (s : Str) :
    (searchNum s).map tokenToRat = (searchNumSpec s).map tokenToRat := by
  induction s with
  | nil => rfl
  | cons c rest ih =>
      unfold searchNum searchNumSpec
      by_cases hc : c.isDigit = true
      · rw [if_pos hc, if_pos hc]
        exact congrArg some (matchNumFrom_value (c :: rest))
      · rw [if_neg hc, if_neg hc]
        exact ih

/-- The numeric normalizer of the source equals the normalizer as the spec
words it, on every input. -/
theorem normalizeNumeric_eq_spec (s : Str) :
    normalizeNumeric s = normalizeNumericSpec s :=
  searchNum_value (replaceCommas s)

/-- Unfolding of the inlier filter test. -/
theorem inlierTest_true_iff (v : Option ℚ) (lb ub : ℚ) :
    inlierTest v lb ub = true ↔ ∃ x, v = some x ∧ lb ≤ x ∧ x ≤ ub := by
  cases v <;> simp [inlierTest]

/-- Unfolding of the outlier filter test. -/
theorem outlierTest_true_iff (v : Option ℚ) (lb ub : ℚ) :
    outlierTest v lb ub = true ↔ ∃ x, v = some x ∧ (x < lb ∨ ub < x) := by
  cases v <;> simp [outlierTest]

/-- Each row of a non-degenerate table with a present value lands in exactly
one of the two outputs of the IQR classifier, and each row with an absent
value lands in neither; every output row comes from the input. -/
theorem removeOutliersIQR_mem_cases {α : Type} (val : α → Option ℚ) (df : List α)
    (f : ℚ) (r : α) (hr : r ∈ df) :
    ((val r).isSome = true →
      ((r ∈ (removeOutliersIQR val df f).1 ∧ r ∉ (removeOutliersIQR val df f).2)
        ∨ (r ∉ (removeOutliersIQR val df f).1 ∧ r ∈ (removeOutliersIQR val df f).2)))
    ∧ (val r = none →
        (r ∉ (removeOutliersIQR val df f).1 ∧ r ∉ (removeOutliersIQR val df f).2)) := by
  unfold removeOutliersIQR
  by_cases hemp : df.isEmpty = true
  · rw [List.isEmpty_eq_true] at hemp
    subst hemp
    exact absurd hr (by simp)
  · rw [if_neg hemp]
    by_cases hvals : (df.filterMap val).isEmpty = true
    · rw [if_pos hvals]
      constructor
      · intro hsome
        obtain ⟨x, hx⟩ := Option.isSome_iff_exists.mp hsome
        rw [List.isEmpty_eq_true, List.filterMap_eq_nil_iff] at hvals
        rw [hvals r hr] at hx
        cases hx
      · intro _
        exact ⟨by simp, by simp⟩
    · rw [if_neg hvals]
      dsimp only
      set lb := quantileLinear (sortQ (df.filterMap val)) (1 / 4)
        - f * (quantileLinear (sortQ (df.filterMap val)) (3 / 4)
          - quantileLinear (sortQ (df.filterMap val)) (1 / 4)) with hlb
      set ub := quantileLinear (sortQ (df.filterMap val)) (3 / 4)
        + f * (quantileLinear (sortQ (df.filterMap val)) (3 / 4)
          - quantileLinear (sortQ (df.filterMap val)) (1 / 4)) with hub
      have not_inl : ∀ x, val r = some x → (x < lb ∨ ub < x) →
          r ∉ df.filter (fun a => inlierTest (val a) lb ub) := by
        intro x hx hout hmem
        obtain ⟨x2, hx2, hle1, hle2⟩ :=
          (inlierTest_true_iff (val r) lb ub).mp (List.mem_filter.mp hmem).2
        obtain rfl : x2 = x := Option.some.inj (hx2.symm.trans hx)
        rcases hout with h | h
        · exact absurd hle1 (not_le.mpr h)
        · exact absurd hle2 (not_le.mpr h)
      have not_out : ∀ x, val r = some x → lb ≤ x → x ≤ ub →
          r ∉ df.filter (fun a => outlierTest (val a) lb ub) := by
        intro x hx hle1 hle2 hmem
        obtain ⟨x2, hx2, hout⟩ :=
          (outlierTest_true_iff (val r) lb ub).mp (List.mem_filter.mp hmem).2
        obtain rfl : x2 = x := Option.some.inj (hx2.symm.trans hx)
        rcases hout with h | h
        · exact absurd hle1 (not_le.mpr h)
        · exact absurd hle2 (not_le.mpr h)
      constructor
      · intro hsome
        obtain ⟨x, hx⟩ := Option.isSome_iff_exists.mp hsome
        by_cases h1 : x < lb
        · refine Or.inr ⟨not_inl x hx (Or.inl h1), ?_⟩
          exact List.mem_filter.mpr
            ⟨hr, (outlierTest_true_iff (val r) lb ub).mpr ⟨x, hx, Or.inl h1⟩⟩
        · by_cases h2 : ub < x
          · refine Or.inr ⟨not_inl x hx (Or.inr h2), ?_⟩
            exact List.mem_filter.mpr
              ⟨hr, (outlierTest_true_iff (val r) lb ub).mpr ⟨x, hx, Or.inr h2⟩⟩
          · refine Or.inl ⟨?_, not_out x hx (not_lt.mp h1) (not_lt.mp h2)⟩
            exact List.mem_filter.mpr
              ⟨hr, (inlierTest_true_iff (val r) lb ub).mpr
                ⟨x, hx, not_lt.mp h1, not_lt.mp h2⟩⟩
      · intro hnone
        constructor
        · intro hmem
          obtain ⟨x2, hx2, -⟩ :=
            (inlierTest_true_iff (val r) lb ub).mp (List.mem_filter.mp hmem).2
          rw [hnone] at hx2
          cases hx2
        · intro hmem
          obtain ⟨x2, hx2, -⟩ :=
            (outlierTest_true_iff (val r) lb ub).mp (List.mem_filter.mp hmem).2
          rw [hnone] at hx2
          cases hx2

/-- Every row of either classifier output is a row of the input. -/
theorem removeOutliersIQR_subset {α : Type} (val : α → Option ℚ) (df : List α)
    (f : ℚ) (r : α)
    (h : r ∈ (removeOutliersIQR val df f).1 ∨ r ∈ (removeOutliersIQR val df f).2) :
    r ∈ df := by
  unfold removeOutliersIQR at h
  by_cases hemp : df.isEmpty = true
  · rw [if_pos hemp] at h
    rcases h with h | h
    · exact h
    · exact absurd h (by simp)
  · rw [if_neg hemp] at h
    by_cases hvals : (df.filterMap val).isEmpty = true
    · rw [if_pos hvals] at h
      rcases h with h | h <;> exact absurd h (by simp)
    · rw [if_neg hvals] at h
      dsimp only at h
      rcases h with h | h <;> exact (List.mem_filter.mp h).1

/-- Filtering through a predicate that only looks at `g` preserves equality
of the `g`-images. -/
theorem filter_map_congr {α β : Type} (g : α → β) (q : β → Bool) :
    ∀ (l1 l2 : List α), l1.map g = l2.map g →
      (l1.filter (fun a => q (g a))).map g = (l2.filter (fun a => q (g a))).map g := by
  intro l1
  induction l1 with
  | nil =>
      intro l2 h
      cases l2 with
      | nil => rfl
      | cons b u => simp at h
  | cons a t ih =>
      intro l2 h
      cases l2 with
      | nil => simp at h
      | cons b u =>
          simp only [List.map_cons, List.cons.injEq] at h
          obtain ⟨hab, htu⟩ := h
          rw [List.filter_cons, List.filter_cons, hab]
          by_cases hq : q (g b) = true
          · rw [if_pos hq, if_pos hq, List.map_cons, List.map_cons, hab, ih u htu]
          · rw [if_neg hq, if_neg hq]
            exact ih u htu

/-- `filterMap` through a function that only looks at `g` is determined by
the `g`-image. -/
theorem filterMap_comp_congr {α β : Type} (g : α → β) (v : β → Option ℚ)
    (l1 l2 : List α) (h : l1.map g = l2.map g) :
    l1.filterMap (fun a => v (g a)) = l2.filterMap (fun a => v (g a)) := by
  have e1 : l1.filterMap (fun a => v (g a)) = (l1.map g).filterMap v :=
    (List.filterMap_map g v l1).symm
  have e2 : l2.filterMap (fun a => v (g a)) = (l2.map g).filterMap v :=
    (List.filterMap_map g v l2).symm
  rw [e1, e2, h]

/-- The classifier's outputs, seen through `g`, are determined by the
`g`-image of the table when the cell value is a function of `g`. -/
theorem removeOutliersIQR_map_congr {α β : Type} (g : α → β) (v : β → Option ℚ)
    (f : ℚ) (l1 l2 : List α) (h : l1.map g = l2.map g) :
    (removeOutliersIQR (fun a => v (g a)) l1 f).1.map g
        = (removeOutliersIQR (fun a => v (g a)) l2 f).1.map g
      ∧ (removeOutliersIQR (fun a => v (g a)) l1 f).2.map g
        = (removeOutliersIQR (fun a => v (g a)) l2 f).2.map g := by
  have hemp : l1.isEmpty = l2.isEmpty := by
    have hlen : l1.length = l2.length := by simpa using congrArg List.length h
    rw [Bool.eq_iff_iff, List.isEmpty_iff_length_eq_zero,
      List.isEmpty_iff_length_eq_zero, hlen]
  have hvals := filterMap_comp_congr g v l1 l2 h
  unfold removeOutliersIQR
  rw [hvals, hemp]
  by_cases he : l2.isEmpty = true
  · rw [if_pos he, if_pos he]
    exact ⟨h, rfl⟩
  · rw [if_neg he, if_neg he]
    by_cases hv : (l2.filterMap (fun a => v (g a))).isEmpty = true
    · rw [if_pos hv, if_pos hv]
      exact ⟨rfl, rfl⟩
    · rw [if_neg hv, if_neg hv]
      dsimp only
      constructor
      · exact filter_map_congr g
          (fun b => inlierTest (v b)
            (quantileLinear (sortQ (l2.filterMap (fun a => v (g a)))) (1 / 4)
              - f * (quantileLinear (sortQ (l2.filterMap (fun a => v (g a)))) (3 / 4)
                - quantileLinear (sortQ (l2.filterMap (fun a => v (g a)))) (1 / 4)))
            (quantileLinear (sortQ (l2.filterMap (fun a => v (g a)))) (3 / 4)
              + f * (quantileLinear (sortQ (l2.filterMap (fun a => v (g a)))) (3 / 4)
                - quantileLinear (sortQ (l2.filterMap (fun a => v (g a)))) (1 / 4))))
          l1 l2 h
      · exact filter_map_congr g
          (fun b => outlierTest (v b)
            (quantileLinear (sortQ (l2.filterMap (fun a => v (g a)))) (1 / 4)
              - f * (quantileLinear (sortQ (l2.filterMap (fun a => v (g a)))) (3 / 4)
                - quantileLinear (sortQ (l2.filterMap (fun a => v (g a)))) (1 / 4)))
            (quantileLinear (sortQ (l2.filterMap (fun a => v (g a)))) (3 / 4)
              + f * (quantileLinear (sortQ (l2.filterMap (fun a => v (g a)))) (3 / 4)
                - quantileLinear (sortQ (l2.filterMap (fun a => v (g a)))) (1 / 4))))
          l1 l2 h

/-- The missing-column and non-numeric-dtype guards of
`data_processing.remove_outliers` return the input unchanged. -/
theorem remove_outliers_dp_guards {α : Type} (val : α → Option ℚ) (df : List α)
    (f : ℚ) (numericDtype : Bool) :
    remove_outliers_dp false numericDtype val df f = (df, [])
      ∧ remove_outliers_dp true false val df f = (df, []) := by
  constructor <;> simp [remove_outliers_dp]

/-- The degenerate branches of `app.remove_outliers`: missing column, empty
frame, or no value surviving coercion, all return the rows unchanged with an
empty outlier set. -/
theorem remove_outliers_app_guards (df : List SRow) (f : ℚ) :
    remove_outliers_app false df f = (df, [])
      ∧ ((∀ r ∈ df, normalizeNumeric r.sval = none) →
          remove_outliers_app true df f = (df, [])) := by
  constructor
  · simp [remove_outliers_app]
  · intro hall
    unfold remove_outliers_app
    by_cases hemp : df.isEmpty = true
    · rw [if_pos (by simp [hemp])]
    · rw [if_neg (by simp [hemp]),
        if_pos (by
          simp only [List.isEmpty_eq_true, List.filterMap_eq_nil_iff]
          exact hall)]

/-- The strict six-digit date format never matches a string of another
length. -/
theorem parseDDMMYY6_len_ne (l : Str) (h : l.length ≠ 6) : parseDDMMYY6 l = none := by
  match l with
  | [] => rfl
  | [_] => rfl
  | [_, _] => rfl
  | [_, _, _] => rfl
  | [_, _, _, _] => rfl
  | [_, _, _, _, _] => rfl
  | [_, _, _, _, _, _] => exact absurd rfl h
  | _ :: _ :: _ :: _ :: _ :: _ :: _ :: _ => rfl

/-- On an already-stripped segment the row-wise `parse_ddmmyy` agrees with
the vectorized `str[:6]` + `to_datetime` step. -/
theorem parse_ddmmyy_eq_vec (p : Str) (hp : trimL p = p) :
    parse_ddmmyy p = parseVecSeg p := by
  unfold parse_ddmmyy parseVecSeg
  rw [hp]
  by_cases hl : p.length < 6
  · rw [if_pos hl, List.take_of_length_le (by omega)]
    exact (parseDDMMYY6_len_ne p (by omega)).symm
  · rw [if_neg hl]

/-- The first element of a non-empty list, via `get?` and `headD`. -/
theorem get0_headD (l : List Str) (h : l ≠ []) : l.get? 0 = some (l.headD []) := by
  cases l with
  | nil => exact absurd rfl h
  | cons a t => rfl

/-- The `headD` of a non-empty list is a member. -/
theorem headD_mem (l : List Str) (h : l ≠ []) : l.headD [] ∈ l := by
  cases l with
  | nil => exact absurd rfl h
  | cons a t => simp

/-- On a lot number all of whose raw hyphen-segments are non-empty and free
of surrounding whitespace, the row-wise parser plus unifier of
`data_processing.py` and the vectorized parser of `app.py` produce the same
four derived fields. -/
theorem rowwise_eq_vec (lot st : Str) (receipt : Option Date)
    (hseg : ∀ p ∈ splitOnC '-' (trimL lot), trimL p = p ∧ p ≠ []) :
    rowwiseResult lot st receipt = parse_dates_vectorized_row lot st receipt := by
  have hpartsL : lotParts lot = splitOnC '-' (trimL lot) := by
    unfold lotParts
    rw [(List.map_congr_left fun p hp => (hseg p hp).1).trans (List.map_id _)]
    rw [List.filter_eq_self.mpr fun p hp => by simpa using (hseg p hp).2]
  have hrm2 : rmPgOf (lowerL st) = rmPgOf (lowerL (trimL st)) :=
    (rmPgOf_lower_trimL st).symm
  have hne := splitOnC_ne_nil '-' (trimL lot)
  have hwh : segParse ((splitOnC '-' (trimL lot)).get? 0)
      = parseVecSeg ((splitOnC '-' (trimL lot)).headD []) := by
    rw [get0_headD _ hne]
    exact parse_ddmmyy_eq_vec _ (hseg _ (headD_mem _ hne)).1
  have hsd : segParse ((splitOnC '-' (trimL lot)).get? 2)
      = (match (splitOnC '-' (trimL lot)).get? 2 with
         | some p2 => parseVecSeg p2
         | none => none) := by
    cases hg2 : (splitOnC '-' (trimL lot)).get? 2 with
    | none => rfl
    | some p2 => exact parse_ddmmyy_eq_vec p2 (hseg p2 (List.get?_mem hg2)).1
  unfold rowwiseResult parse_dates_vectorized_row unify_date
  dsimp only
  rw [process_lot_dates_eq, hpartsL, hrm2]
  cases hrm : rmPgOf (lowerL (trimL st)) with
  | true =>
      simp only [eq_self_iff_true, if_true]
      simp only [VecResult.mk.injEq]
      refine ⟨hwh, hsd, ?_, ?_⟩
      · cases hg1 : (splitOnC '-' (trimL lot)).get? 1 with
        | none => rfl
        | some p1 =>
            dsimp only [segName]
            by_cases hmbp : p1 = mbpTok
            · simp [hmbp]
            · simp [hmbp]
      · rw [hwh, hsd]
  | false =>
      simp only [Bool.false_eq_true, if_false]
      simp only [VecResult.mk.injEq]
      refine ⟨trivial, hwh, ?_, ?_⟩
      · cases hg1 : (splitOnC '-' (trimL lot)).get? 1 with
        | none => rfl
        | some p1 => simp
      · cases receipt with
        | none => exact hwh
        | some d => rfl

/-- With both guards satisfied, `data_processing.remove_outliers` is the IQR
branch. -/
theorem remove_outliers_dp_true_true {α : Type} (val : α → Option ℚ)
    (df : List α) (f : ℚ) :
    remove_outliers_dp true true val df f = removeOutliersIQR val df f := by
  unfold remove_outliers_dp
  simp only [Bool.not_true, Bool.false_or, Bool.or_false]
  by_cases h : df.isEmpty = true
  · rw [if_pos h]
    unfold removeOutliersIQR
    rw [if_pos h]
  · rw [if_neg h]

/-! ### The claims -/

/-- Claim C1: on the record with lot number `"020125-KIB08-291224-MBP"` and
sample type `"RM - Raw material"`, the lot-code parser yields warehouse date
2025-01-02, supplier name `"KIB08"` and supplier date 2024-12-29; on the
raw-material branch, segments 0 and 2 are parsed as `DDMMYY` dates from only
their first six characters (shown by the second example, whose segments carry
trailing junk beyond the sixth character, and by the general equation on
`parse_ddmmyy`). -/
theorem claim_C1 :
    process_lot_dates (str "020125-KIB08-291224-MBP") (str "RM - Raw material")
        = { warehouse_date := some ⟨2025, 1, 2⟩
            supplier_date := some ⟨2024, 12, 29⟩
            supplier_name := some (str "KIB08") }
      ∧ process_lot_dates (str "020125XYZ-KIB08-291224ABCD-MBP")
            (str "RM - Raw material")
          = { warehouse_date := some ⟨2025, 1, 2⟩
              supplier_date := some ⟨2024, 12, 29⟩
              supplier_name := some (str "KIB08") }
      ∧ (∀ s : Str, 6 ≤ (trimL s).length →
          parse_ddmmyy s = parseDDMMYY6 ((trimL s).take 6)) := by
  refine ⟨by decide, by decide, ?_⟩
  intro s h
  unfold parse_ddmmyy
  rw [if_neg (by omega)]

/-- Witness for C1: the general first-six-characters equation applied to a
nine-character segment. -/
theorem claim_C1_witness :
    6 ≤ (trimL (str "020125XYZ")).length
      ∧ parse_ddmmyy (str "020125XYZ")
          = parseDDMMYY6 ((trimL (str "020125XYZ")).take 6) :=
  ⟨by decide, claim_C1.2.2 (str "020125XYZ") (by decide)⟩

/-- Claim C2: the date unifier returns, for records whose sample type
contains (case-insensitively) one of "rm", "raw material", "pg", "packaging",
the warehouse date when present and otherwise the supplier date; for every
other record the receipt date when present and otherwise the supplier date
(when the receipt column is absent the receipt value cannot be present and
the supplier date is returned); and an absent value when no contributing
field is present. -/
theorem claim_C2 (st : Str) (wd sd rd : Option Date) (hc : Bool) :
    (rmPgOf (lowerL st) = true →
        unify_date st wd sd rd hc
          = (match wd with | some d => some d | none => sd))
      ∧ (rmPgOf (lowerL st) = false → hc = true →
          unify_date st wd sd rd hc
            = (match rd with | some d => some d | none => sd))
      ∧ (rmPgOf (lowerL st) = false → hc = false →
          unify_date st wd sd rd hc = sd)
      ∧ (wd = none → sd = none → rd = none →
          unify_date st wd sd rd hc = none) := by
  refine ⟨?_, ?_, ?_, ?_⟩
  · intro h
    unfold unify_date
    rw [if_pos h]
  · intro h hct
    unfold unify_date
    rw [if_neg (by simp [h]), hct]
    cases rd with
    | none => rfl
    | some d => rfl
  · intro h hcf
    unfold unify_date
    rw [if_neg (by simp [h]), hcf]
    rfl
  · intro hwd hsd hrd
    subst hwd hsd hrd
    unfold unify_date
    by_cases h : rmPgOf (lowerL st) = true
    · rw [if_pos h]
    · rw [if_neg h]
      cases hc <;> rfl

/-- Witness for C2: the three precedence rules at concrete dates. -/
theorem claim_C2_witness :
    rmPgOf (lowerL (str "RM - Raw material")) = true
      ∧ unify_date (str "RM - Raw material") (some ⟨2025, 1, 2⟩)
          (some ⟨2024, 12, 29⟩) none true = some ⟨2025, 1, 2⟩
      ∧ rmPgOf (lowerL (str "FG")) = false
      ∧ unify_date (str "FG") none (some ⟨2024, 12, 29⟩) (some ⟨2025, 2, 3⟩)
          true = some ⟨2025, 2, 3⟩
      ∧ unify_date (str "FG") none none none true = none :=
  ⟨by decide,
   (claim_C2 (str "RM - Raw material") (some ⟨2025, 1, 2⟩)
       (some ⟨2024, 12, 29⟩) none true).1 (by decide),
   by decide,
   (claim_C2 (str "FG") none (some ⟨2024, 12, 29⟩) (some ⟨2025, 2, 3⟩)
       true).2.1 (by decide) rfl,
   (claim_C2 (str "FG") none none none true).2.2.2 rfl rfl rfl⟩

/-- Claim C4: the numeric normalizer (comma replacement followed by the first
greedy match of the source regex) computes, on every input, the value of the
first run of digits optionally followed by a period and one or more digits,
exactly as the spec words it (the source regex can additionally swallow a
dangling period, which never changes the numeric value); and the three
spec examples evaluate as stated. -/
theorem claim_C4 :
    (∀ s : Str, normalizeNumeric s = normalizeNumericSpec s)
      ∧ normalizeNumeric (str "12,5 mg") = some (25 / 2)
      ∧ normalizeNumeric (str "< 0,01") = some (1 / 100)
      ∧ normalizeNumeric (str "abc") = none :=
  ⟨normalizeNumeric_eq_spec, by decide, by decide, by decide⟩

/-- Claim C6: on the raw-material/packaging branch, a second segment equal to
the sentinel `"MBP"` (case-sensitive) is suppressed and any other second
segment becomes the supplier name; the lot `"020125-MBP"` with a raw-material
type yields an absent supplier name and warehouse date 2025-01-02. -/
theorem claim_C6 :
    (∀ lot st : Str, rmPgOf (lowerL (trimL st)) = true →
        ∀ p, (lotParts lot).get? 1 = some p →
          (process_lot_dates lot st).supplier_name
            = (if p = mbpTok then none else some p))
      ∧ process_lot_dates (str "020125-MBP") (str "RM - Raw material")
          = { warehouse_date := some ⟨2025, 1, 2⟩
              supplier_date := none
              supplier_name := none } := by
  constructor
  · intro lot st hrm p hp
    rw [process_lot_dates_eq, if_pos hrm]
    dsimp only
    rw [hp]
    dsimp only [segName]
    by_cases h : p = mbpTok
    · simp [h]
    · simp [h]
  · decide

/-- Witness for C6: the sentinel rule applied to the second segment
`"KIB08"` of the C1 example lot. -/
theorem claim_C6_witness :
    (process_lot_dates (str "020125-KIB08-291224-MBP")
        (str "RM - Raw material")).supplier_name
      = (if str "KIB08" = mbpTok then none else some (str "KIB08")) :=
  claim_C6.1 (str "020125-KIB08-291224-MBP") (str "RM - Raw material")
    (by decide) (str "KIB08") (by decide)

/-- Claim C8: the lot-code parser is a total function and each derived field
is a function of its own segment lookup alone, so a failed parse of one
sub-field (encoded as `none` by `segParse`/`segName`) leaves the other fields
unaffected. -/
theorem claim_C8 (lot st : Str) :
    process_lot_dates lot st =
      (if rmPgOf (lowerL (trimL st)) then
        { warehouse_date := segParse ((lotParts lot).get? 0)
          supplier_date := segParse ((lotParts lot).get? 2)
          supplier_name := segName ((lotParts lot).get? 1) }
      else
        { warehouse_date := none
          supplier_date := segParse ((lotParts lot).get? 0)
          supplier_name := none }) :=
  process_lot_dates_eq lot st

/-- Counterexample to C3 as stated: `app.remove_outliers` places a row whose
numeric value is absent (`"abc"` normalizes to `none`) into the inlier
output, because its inlier filter is the complement of the outlier mask. -/
theorem claim_C3_counterexample :
    (⟨0, str "abc"⟩ : SRow)
        ∈ (remove_outliers_app true [⟨0, str "abc"⟩, ⟨1, str "5"⟩] (3 / 2)).1
      ∧ normalizeNumeric (str "abc") = none := by
  constructor
  · decide
  · decide

/-- Claim C3 amended: for `data_processing.remove_outliers` (column present,
numeric dtype) the outputs are a disjoint partition of exactly the rows with
a present value — each present-valued row lies in exactly one output, each
absent-valued row in neither, and every output row comes from the input.
(The `app.py` variant instead sends absent-valued rows to the inlier output;
see the counterexample.) -/
theorem claim_C3_amended {α : Type} (val : α → Option ℚ) (df : List α)
    (f : ℚ) (r : α) :
    (r ∈ df → (val r).isSome = true →
        ((r ∈ (remove_outliers_dp true true val df f).1
            ∧ r ∉ (remove_outliers_dp true true val df f).2)
          ∨ (r ∉ (remove_outliers_dp true true val df f).1
              ∧ r ∈ (remove_outliers_dp true true val df f).2)))
      ∧ (r ∈ df → val r = none →
          (r ∉ (remove_outliers_dp true true val df f).1
            ∧ r ∉ (remove_outliers_dp true true val df f).2))
      ∧ ((r ∈ (remove_outliers_dp true true val df f).1
            ∨ r ∈ (remove_outliers_dp true true val df f).2) → r ∈ df) := by
  rw [remove_outliers_dp_true_true]
  exact ⟨fun hr hs => (removeOutliersIQR_mem_cases val df f r hr).1 hs,
    fun hr hn => (removeOutliersIQR_mem_cases val df f r hr).2 hn,
    removeOutliersIQR_subset val df f r⟩

/-- Witness for the amended C3 on a two-row table. -/
theorem claim_C3_witness :
    (((0, some (5 : ℚ))
          ∈ (remove_outliers_dp true true Prod.snd
              [((0 : Nat), some (5 : ℚ)), (1, none)] (3 / 2)).1
        ∧ (0, some (5 : ℚ))
            ∉ (remove_outliers_dp true true Prod.snd
                [((0 : Nat), some (5 : ℚ)), (1, none)] (3 / 2)).2)
      ∨ ((0, some (5 : ℚ))
            ∉ (remove_outliers_dp true true Prod.snd
                [((0 : Nat), some (5 : ℚ)), (1, none)] (3 / 2)).1
          ∧ (0, some (5 : ℚ))
              ∈ (remove_outliers_dp true true Prod.snd
                  [((0 : Nat), some (5 : ℚ)), (1, none)] (3 / 2)).2))
    ∧ (((1 : Nat), (none : Option ℚ))
          ∉ (remove_outliers_dp true true Prod.snd
              [((0 : Nat), some (5 : ℚ)), (1, none)] (3 / 2)).1
        ∧ ((1 : Nat), (none : Option ℚ))
            ∉ (remove_outliers_dp true true Prod.snd
                [((0 : Nat), some (5 : ℚ)), (1, none)] (3 / 2)).2)
    ∧ (0, some (5 : ℚ)) ∈ [((0 : Nat), some (5 : ℚ)), (1, none)] :=
  ⟨(claim_C3_amended Prod.snd [((0 : Nat), some (5 : ℚ)), (1, none)] (3 / 2)
      (0, some 5)).1 (by decide) (by decide),
   (claim_C3_amended Prod.snd [((0 : Nat), some (5 : ℚ)), (1, none)] (3 / 2)
      (1, none)).2.1 (by decide) rfl,
   (claim_C3_amended Prod.snd [((0 : Nat), some (5 : ℚ)), (1, none)] (3 / 2)
      (0, some 5)).2.2 (Or.inl (by decide))⟩

/-- Claim C5: with the IQR method, the bounds are `Q1 - f·IQR` and
`Q3 + f·IQR` from the linearly interpolated quartiles of the present values
(`iqrLB`/`iqrUB` unfold to exactly those expressions over `quantileLinear`),
a present-valued row is an outlier iff its value is strictly outside the
bounds and an inlier iff it is inside; on the column `[1,…,9,100]` with
`f = 1.5` the quartiles are 3.25 and 7.75 and exactly the row holding 100 is
classified outlier. -/
theorem claim_C5 :
    (∀ (df : List (Nat × Option ℚ)) (f : ℚ) (r : Nat × Option ℚ) (x : ℚ),
        r ∈ df → r.2 = some x →
          ((r ∈ (remove_outliers_dp true true Prod.snd df f).2
              ↔ (x < iqrLB (df.filterMap Prod.snd) f
                  ∨ iqrUB (df.filterMap Prod.snd) f < x))
            ∧ (r ∈ (remove_outliers_dp true true Prod.snd df f).1
                ↔ (iqrLB (df.filterMap Prod.snd) f ≤ x
                    ∧ x ≤ iqrUB (df.filterMap Prod.snd) f))))
      ∧ quantileLinear (sortQ (dfC5.filterMap Prod.snd)) (1 / 4) = 13 / 4
      ∧ quantileLinear (sortQ (dfC5.filterMap Prod.snd)) (3 / 4) = 31 / 4
      ∧ (remove_outliers_dp true true Prod.snd dfC5 (3 / 2)).2 = [(9, some 100)]
      ∧ (remove_outliers_dp true true Prod.snd dfC5 (3 / 2)).1 = dfC5.take 9 := by
  refine ⟨?_, by decide, by decide, by decide, by decide⟩
  intro df f r x hr hx
  rw [remove_outliers_dp_true_true]
  have hdf : ¬ df.isEmpty = true := by
    simp only [List.isEmpty_eq_true]
    exact List.ne_nil_of_mem hr
  have hvx : x ∈ df.filterMap Prod.snd := List.mem_filterMap.mpr ⟨r, hr, hx⟩
  have hvals : ¬ (df.filterMap Prod.snd).isEmpty = true := by
    simp only [List.isEmpty_eq_true]
    exact List.ne_nil_of_mem hvx
  unfold removeOutliersIQR iqrLB iqrUB
  rw [if_neg hdf, if_neg hvals]
  dsimp only
  constructor
  · constructor
    · intro hmem
      obtain ⟨x2, hx2, h⟩ :=
        (outlierTest_true_iff _ _ _).mp (List.mem_filter.mp hmem).2
      obtain rfl : x2 = x := Option.some.inj (hx2.symm.trans hx)
      exact h
    · intro h
      exact List.mem_filter.mpr ⟨hr, (outlierTest_true_iff _ _ _).mpr ⟨x, hx, h⟩⟩
  · constructor
    · intro hmem
      obtain ⟨x2, hx2, h1, h2⟩ :=
        (inlierTest_true_iff _ _ _).mp (List.mem_filter.mp hmem).2
      obtain rfl : x2 = x := Option.some.inj (hx2.symm.trans hx)
      exact ⟨h1, h2⟩
    · intro h
      exact List.mem_filter.mpr
        ⟨hr, (inlierTest_true_iff _ _ _).mpr ⟨x, hx, h.1, h.2⟩⟩

/-- Witness for C5: the outlier characterization applied to the row holding
100 of the example column. -/
theorem claim_C5_witness :
    (9, some (100 : ℚ)) ∈ (remove_outliers_dp true true Prod.snd dfC5 (3 / 2)).2 :=
  ((claim_C5.1 dfC5 (3 / 2) (9, some 100) 100 (by decide) rfl).1).mpr (by decide)

/-- Counterexample to C7 as stated: on a non-empty table whose numeric column
is entirely absent, `data_processing.remove_outliers` returns an empty pair
(the `NaN` quantile bounds fail every comparison), not the original table as
inliers. -/
theorem claim_C7_counterexample :
    remove_outliers_dp true true Prod.snd [((0 : Nat), (none : Option ℚ))] (3 / 2)
      ≠ ([((0 : Nat), (none : Option ℚ))], []) := by
  decide

/-- Claim C7 amended: the missing-column and non-numeric-dtype guards of
`data_processing.remove_outliers` return the original table with an empty
outlier set, but on a non-empty table whose eligible set is empty it returns
an empty inlier set instead; `app.remove_outliers` returns the rows unchanged
with an empty outlier set in all three degenerate cases (missing column,
empty table, nothing coercible); and neither embedding can raise (both are
total functions). -/
theorem claim_C7_amended {α : Type} (val : α → Option ℚ) (df : List α)
    (f : ℚ) (b : Bool) (dfs : List SRow) :
    remove_outliers_dp false b val df f = (df, [])
      ∧ remove_outliers_dp true false val df f = (df, [])
      ∧ ((∀ r ∈ df, val r = none) → df ≠ [] →
          remove_outliers_dp true true val df f = ([], []))
      ∧ remove_outliers_app false dfs f = (dfs, [])
      ∧ ((∀ r ∈ dfs, normalizeNumeric r.sval = none) →
          remove_outliers_app true dfs f = (dfs, []))
      ∧ (dfs = [] → remove_outliers_app true dfs f = (dfs, [])) := by
  refine ⟨(remove_outliers_dp_guards val df f b).1,
    (remove_outliers_dp_guards val df f b).2, ?_,
    (remove_outliers_app_guards dfs f).1,
    (remove_outliers_app_guards dfs f).2, ?_⟩
  · intro hall hne
    rw [remove_outliers_dp_true_true]
    unfold removeOutliersIQR
    rw [if_neg (by simp [hne]),
      if_pos (by
        simp only [List.isEmpty_eq_true, List.filterMap_eq_nil_iff]
        exact hall)]
  · intro h
    subst h
    rfl

/-- Witness for the amended C7: the degenerate behaviours on one-row
tables. -/
theorem claim_C7_witness :
    remove_outliers_dp true true Prod.snd [((0 : Nat), (none : Option ℚ))] (3 / 2)
        = ([], [])
      ∧ remove_outliers_app true [⟨0, str "abc"⟩] (3 / 2) = ([⟨0, str "abc"⟩], [])
      ∧ remove_outliers_dp false true Prod.snd [((0 : Nat), some (1 : ℚ))] (3 / 2)
          = ([((0 : Nat), some (1 : ℚ))], []) :=
  ⟨(claim_C7_amended Prod.snd [((0 : Nat), (none : Option ℚ))] (3 / 2) true
      []).2.2.1 (by decide) (by decide),
   (claim_C7_amended Prod.snd ([] : List (Nat × Option ℚ)) (3 / 2) true
      [⟨0, str "abc"⟩]).2.2.2.2.1 (by decide),
   (claim_C7_amended Prod.snd [((0 : Nat), some (1 : ℚ))] (3 / 2) true []).1⟩

/-- Claim C9: the pipeline (lot parsing, date unification, numeric
normalization, IQR classification) is a deterministic function of the raw
columns it reads: two tables agreeing on lot number, sample type, receipt
date and actual result (even if they differ in every other column) produce
identical derived columns on both outputs, and a second run on the same
table reproduces the first. -/
theorem claim_C9 (df1 df2 : List RawRow) (h : df1.map rawKey = df2.map rawKey) :
    derivedCols (pipeline df1).1 = derivedCols (pipeline df2).1
      ∧ derivedCols (pipeline df1).2 = derivedCols (pipeline df2).2
      ∧ pipeline df1 = pipeline df1 := by
  have hm : (df1.map enrichRow).map derivedOf
      = (df2.map enrichRow).map derivedOf := by
    rw [List.map_map, List.map_map]
    show df1.map (enrichKey ∘ rawKey) = df2.map (enrichKey ∘ rawKey)
    rw [← List.map_map, ← List.map_map, h]
  have hcongr := removeOutliersIQR_map_congr derivedOf valOfDerived (3 / 2)
    (df1.map enrichRow) (df2.map enrichRow) hm
  unfold pipeline derivedCols
  rw [remove_outliers_dp_true_true, remove_outliers_dp_true_true]
  exact ⟨hcongr.1, hcongr.2, rfl⟩

/-- Witness for C9: two copies of a one-row table differing only in the
unread `other` column. -/
theorem claim_C9_witness :
    derivedCols (pipeline dfA).1 = derivedCols (pipeline dfB).1
      ∧ derivedCols (pipeline dfA).2 = derivedCols (pipeline dfB).2
      ∧ pipeline dfA = pipeline dfA :=
  claim_C9 dfA dfB (by decide)

/-- Counterexample to C10 as stated: on the lot `"020125--KIB08-291224"`
(an empty segment after the first hyphen) with a raw-material type, the
row-wise parser drops the empty segment and yields supplier name `"KIB08"`
and supplier date 2024-12-29, while the vectorized parser keeps the raw
segments and yields supplier name `""` and an absent supplier date. -/
theorem claim_C10_counterexample :
    rowwiseResult (str "020125--KIB08-291224") (str "rm") none
      ≠ parse_dates_vectorized_row (str "020125--KIB08-291224") (str "rm")
          none := by
  decide

/-- Claim C10 amended: the vectorized implementation agrees with the
row-wise implementation on every row whose lot number splits into hyphen
segments that are all non-empty and free of leading/trailing whitespace (the
two differ on empty or whitespace-padded segments, which the row-wise parser
discards or strips and the vectorized parser keeps). -/
theorem claim_C10_amended (lot st : Str) (receipt : Option Date)
    (hseg : ∀ p ∈ splitOnC '-' (trimL lot), trimL p = p ∧ p ≠ []) :
    rowwiseResult lot st receipt = parse_dates_vectorized_row lot st receipt :=
  rowwise_eq_vec lot st receipt hseg

/-- Witness for the amended C10 on the clean example lot. -/
theorem claim_C10_witness :
    rowwiseResult (str "020125-KIB08-291224-MBP") (str "RM - Raw material") none
      = parse_dates_vectorized_row (str "020125-KIB08-291224-MBP")
          (str "RM - Raw material") none :=
  claim_C10_amended (str "020125-KIB08-291224-MBP") (str "RM - Raw material")
    none (by decide)

end QLone
